import Mathlib

/-!
Verification development for the Health Whisperer repository.

Shallow embedding conventions:
* Python floats are modelled as rationals (`ℚ`); all the arithmetic the
  claims touch is exact decimal arithmetic, so `ℚ` is faithful.
* Python strings are modelled as `List Char`; timestamps are modelled as
  minutes since the Unix epoch (`ℤ`), so that "convert to UTC calendar
  day" is integer floor-division by 1440 and an IANA timezone is its
  offset from UTC in minutes.
* `None`-able values are `Option`; Python's `x or d` default idiom
  (which also replaces a zero/empty value by the default) is modelled by
  the `orDefault*` helpers.
* Code that can raise is modelled in `Except`.

Sources embedded: `pages/05_Dashboard.py` (daily aggregation, goal
hits, streaks, digital-twin projection, wellbeing, adherence),
`services/memory.py` (context retrieval and personal context) and
`telegram_bot/bot.py` (check-in meal parsing, context snippets).
-/

namespace HW

/-! ### Python string helpers (`List Char` model) -/

/-- Python `str.strip()`: drop whitespace from both ends. -/
def pyStrip (s : List Char) : List Char :=
  ((s.dropWhile Char.isWhitespace).reverse.dropWhile Char.isWhitespace).reverse

/-- Python `str.lower()` (ASCII-level model). -/
def pyLower (s : List Char) : List Char := s.map Char.toLower

/-- Python `sep.join(xs)`. -/
def pyJoin (sep : List Char) (xs : List (List Char)) : List Char :=
  List.intercalate sep xs

/-- `listPre pat s`: `pat` is a prefix of `s` (Python `s.startswith(pat)`). -/
def listPre : List Char → List Char → Bool
  | [], _ => true
  | _ :: _, [] => false
  | p :: ps, c :: cs => p == c && listPre ps cs

/-- `listSub pat s`: `pat` occurs as a contiguous substring of `s`
(Python `pat in s`). -/
def listSub (pat : List Char) : List Char → Bool
  | [] => pat.isEmpty
  | c :: rest => listPre pat (c :: rest) || listSub pat rest

/-! ### Numeric model of `pages/05_Dashboard.py` -/

/-- `int(x or d)` / `float(x or d)` on an optional number: Python `or`
also replaces a stored zero by the default. -/
def orDefaultZ (x : Option ℤ) (d : ℤ) : ℤ :=
  match x with
  | none => d
  | some v => if v = 0 then d else v

/-- `float(x or d)` for rationals, with Python's zero-is-falsy `or`. -/
def orDefaultQ (x : Option ℚ) (d : ℚ) : ℚ :=
  match x with
  | none => d
  | some v => if v = 0 then d else v

/-- `(x or "")` for an optional string. -/
def orDefaultS (x : Option (List Char)) : List Char :=
  match x with
  | none => []
  | some s => s

/-! ### Digital twin (`pages/05_Dashboard.py`, `tab_twin`) -/

/-- The profile row fields used by `estimate_tdee` / `project_weight_series`
(`profiles` table; absent fields are `none`). -/
structure Profile where
  age : Option ℤ
  height_cm : Option ℚ
  weight_kg : Option ℚ
  gender : Option (List Char)
  activity_level : Option (List Char)

/-- `activity_factor(level)` from `05_Dashboard.py`: scans the insertion-
ordered dict `{"Sedentary":1.2, "Lightly active":1.375, "Moderately
active":1.55, "Very active":1.725, "Athlete":1.9}` and returns the first
value whose lowercased key is a substring of the lowercased level; empty
or unmatched level gives `1.2`. -/
def activity_factor (level : Option (List Char)) : ℚ :=
  let l := orDefaultS level
  if l.isEmpty then 6/5
  else
    let low := pyLower l
    if listSub (pyLower "Sedentary".data) low then 6/5
    else if listSub (pyLower "Lightly active".data) low then 11/8
    else if listSub (pyLower "Moderately active".data) low then 31/20
    else if listSub (pyLower "Very active".data) low then 69/40
    else if listSub (pyLower "Athlete".data) low then 19/10
    else 6/5

/-- `estimate_tdee(profile, steps_avg, sleep_avg, water_avg)`:
Mifflin-St Jeor BMR with gender offset, activity factor, steps bonus,
sleep and water penalties. -/
def estimate_tdee (p : Profile) (steps_avg sleep_avg water_avg : ℚ) : ℚ :=
  let age : ℤ := orDefaultZ p.age 30
  let h : ℚ := orDefaultQ p.height_cm 170
  let w : ℚ := orDefaultQ p.weight_kg 75
  let gender := pyLower (orDefaultS p.gender)
  let bmr : ℚ := 10 * w + 25/4 * h - 5 * (age : ℚ) +
    (if listPre "m".data gender then 5
     else if listPre "f".data gender then -161 else -78)
  let af := activity_factor p.activity_level
  let steps_bonus : ℚ := 80 * max 0 ((steps_avg - 6000) / 2000)
  let sleep_pen : ℚ := if sleep_avg < 360 then -100 else if sleep_avg < 420 then -50 else 0
  let water_pen : ℚ := if water_avg < 1000 then -40 else 0
  bmr * af + steps_bonus + sleep_pen + water_pen

/-- Round-half-even to an integer (Python's builtin `round` tie rule). -/
def roundHE (x : ℚ) : ℤ :=
  if Int.fract x < 1/2 then ⌊x⌋
  else if 1/2 < Int.fract x then ⌊x⌋ + 1
  else if ⌊x⌋ % 2 = 0 then ⌊x⌋ else ⌊x⌋ + 1

/-- `wellbeing_score(mood, stress, anxiety, focus)`: normalize mood/focus
to [0,1], invert stress/anxiety, weighted sum, `round(100*raw, 1)`. -/
def wellbeing_score (mood stress anxiety focus : ℚ) : ℚ :=
  let mood_n := (mood - 1) / 4
  let focus_n := (focus - 1) / 4
  let stress_n := 1 - (stress - 1) / 4
  let anxiety_n := 1 - (anxiety - 1) / 4
  let raw := 3/10 * mood_n + 3/10 * focus_n + 1/5 * stress_n + 1/5 * anxiety_n
  ((roundHE (100 * raw * 10) : ℤ) : ℚ) / 10

/-- `adherence_multiplier(mood, stress, anxiety, focus, sleep_avg)`:
product of per-signal factors, clamped into [0.88, 1.08]. -/
def adherence_multiplier (mood stress anxiety focus sleep_avg : ℚ) : ℚ :=
  let term : ℚ := 1
  let term := term * (if 7/2 ≤ mood then 51/50 else 49/50)
  let term := term * (if 7/2 ≤ focus then 51/50 else 49/50)
  let term := term * (if 7/2 ≤ stress then 97/100 else 1)
  let term := term * (if 7/2 ≤ anxiety then 97/100 else 1)
  let term := term * (if sleep_avg < 360 then 97/100 else 1)
  max (22/25) (min (27/25) term)

/-- One iteration of the `project_weight_series` loop body. -/
def projectStep (p : Profile)
    (kcal_intake steps_avg sleep_avg water_avg : ℚ)
    (dSteps dSleep dWater dIntake : ℚ) (adherence : ℚ) (w : ℚ) : ℚ :=
  let tdee := estimate_tdee p (steps_avg + dSteps) (sleep_avg + dSleep) (water_avg + dWater)
  let intake := kcal_intake + dIntake
  let delta_kg := (intake - tdee) / 7700 * adherence
  max 35 (w + delta_kg)

/-- The `for _ in range(days+1)` loop of `project_weight_series`:
update the weight, append it, repeat. -/
def projectGo (p : Profile)
    (kcal_intake steps_avg sleep_avg water_avg : ℚ)
    (dSteps dSleep dWater dIntake : ℚ) (adherence : ℚ) : ℚ → ℕ → List ℚ
  | _, 0 => []
  | w, n + 1 =>
    let w' := projectStep p kcal_intake steps_avg sleep_avg water_avg
      dSteps dSleep dWater dIntake adherence w
    w' :: projectGo p kcal_intake steps_avg sleep_avg water_avg
      dSteps dSleep dWater dIntake adherence w' n

/-- `project_weight_series(profile, ...)`: iterates `days+1` steps from
the profile weight (default 75), producing the appended series. -/
def project_weight_series (p : Profile)
    (kcal_intake steps_avg sleep_avg water_avg : ℚ)
    (dSteps dSleep dWater dIntake : ℚ) (days : ℕ) (adherence : ℚ) : List ℚ :=
  projectGo p kcal_intake steps_avg sleep_avg water_avg
    dSteps dSleep dWater dIntake adherence (orDefaultQ p.weight_kg 75) (days + 1)

/-- The concrete profile of claim C5: age 30, height 170 cm, weight
75 kg, gender female, activity level "Sedentary". -/
def profileC5 : Profile :=
  ⟨some 30, some 170, some 75, some "female".data, some "Sedentary".data⟩

/-! ### Daily aggregation, goal hits and streaks (`pages/05_Dashboard.py`)

Timestamps are minutes since the Unix epoch (UTC); a timezone is its
UTC offset in minutes. -/

/-- The fields of an `hw_metrics` row used by the aggregation claims. -/
structure MetricRecord where
  ts : ℤ
  steps : Option ℚ
  water_ml : Option ℚ
  sleep_minutes : Option ℚ
deriving DecidableEq

/-- The fields of an `hw_meals` row used by the aggregation claims. -/
structure MealRecord where
  ts : ℤ
  calories : Option ℚ
deriving DecidableEq

/-- `ts.dt.tz_convert("UTC").dt.date`: the UTC calendar day of an instant. -/
def utcDay (ts : ℤ) : ℤ := Int.fdiv ts 1440

/-- `ts.dt.tz_convert(tz).dt.date`: the calendar day of an instant in the
timezone with UTC offset `off` minutes. -/
def localDay (ts off : ℤ) : ℤ := Int.fdiv (ts + off) 1440

/-- The pandas `max` reduction over a group column: `none` when no
(non-null) value is present, else the running maximum. -/
def reduceMax : List ℚ → Option ℚ
  | [] => none
  | x :: xs => some (xs.foldl max x)

/-- The pandas `sum` reduction over a group column (missing values
skipped, empty sum 0). -/
def reduceSum (l : List ℚ) : ℚ := l.foldl (· + ·) 0

/-- The non-null values of one metric column among the records whose UTC
day is `d` (the `groupby("date")` group of `tab_trend`). -/
def fieldOfDay (f : MetricRecord → Option ℚ) (ms : List MetricRecord) (d : ℤ) : List ℚ :=
  (ms.filter (fun r => utcDay r.ts == d)).filterMap f

/-- `daily` steps column of `tab_trend`: per-day `max` of `steps`. -/
def dailyStepsAgg (ms : List MetricRecord) (d : ℤ) : Option ℚ :=
  reduceMax (fieldOfDay (fun r => r.steps) ms d)

/-- The non-null calories of the meals whose UTC day is `d`. -/
def calsOfDay (meals : List MealRecord) (d : ℤ) : List ℚ :=
  (meals.filter (fun r => utcDay r.ts == d)).filterMap (fun r => r.calories)

/-- `meal_day` calories column: per-day `sum` of meal calories. -/
def mealDayCalories (meals : List MealRecord) (d : ℤ) : ℚ :=
  reduceSum (calsOfDay meals d)

/-- The preference fields used by `goal_hits_by_day`. -/
structure Prefs where
  daily_step_goal : Option ℤ
  daily_water_ml : Option ℤ
  sleep_goal_min : Option ℤ
deriving DecidableEq

/-- One row of the frame built by `goal_hits_by_day`. -/
structure DayHits where
  day : ℤ
  steps_hit : Bool
  water_hit : Bool
  sleep_hit : Bool
  any_hit : Bool
deriving DecidableEq

/-- `agg[col] >= goal` on a possibly-missing aggregate: a missing value
(NaN) never counts as a hit. -/
def hitOf (goal : ℤ) (v : Option ℚ) : Bool :=
  match v with
  | none => false
  | some x => decide ((goal : ℚ) ≤ x)

/-- The distinct UTC days of a record set, ascending (pandas `groupby`
key order). -/
def daysOf (ms : List MetricRecord) : List ℤ :=
  List.insertionSort (· ≤ ·) ((ms.map (fun r => utcDay r.ts)).dedup)

/-- `goal_hits_by_day(metrics_df, prefs)`: group records by UTC day, take
the per-day max of steps/water/sleep, compare with the preference goals
(defaults 8000/2000/420), and set `any_hit` to their disjunction; rows
sorted by day. -/
def goal_hits_by_day (ms : List MetricRecord) (p : Prefs) : List DayHits :=
  let sg := orDefaultZ p.daily_step_goal 8000
  let wg := orDefaultZ p.daily_water_ml 2000
  let slg := orDefaultZ p.sleep_goal_min 420
  (daysOf ms).map (fun d =>
    let sh := hitOf sg (reduceMax (fieldOfDay (fun r => r.steps) ms d))
    let wh := hitOf wg (reduceMax (fieldOfDay (fun r => r.water_ml) ms d))
    let slh := hitOf slg (reduceMax (fieldOfDay (fun r => r.sleep_minutes) ms d))
    ⟨d, sh, wh, slh, sh || wh || slh⟩)

/-- The `for ok in reversed(list): if ok: cnt += 1 else: break` loop of
`current_streak`, after the `reversed`. -/
def streakGo : List Bool → ℕ
  | [] => 0
  | b :: bs => if b then streakGo bs + 1 else 0

/-- `current_streak(hit_series)` from `tab_badges`. -/
def current_streak (l : List Bool) : ℕ := streakGo l.reverse

/-- Helper of `specStreak`: keep counting only while the previous
present day is exactly one calendar day earlier and its `any_hit` holds. -/
def specStreakGo (d : ℤ) : List (ℤ × Bool) → ℕ
  | [] => 0
  | (d', b) :: rest => if d' = d - 1 ∧ b then specStreakGo d' rest + 1 else 0

/-- The streak as the spec words it (for the refinement comparison of
claim C3): scan the day-sorted `(day, any_hit)` rows from the most
recent backward, counting while `any_hit` is true, stopping at the first
false day and at the first calendar gap. -/
def specStreak (l : List (ℤ × Bool)) : ℕ :=
  match l.reverse with
  | [] => 0
  | (d, b) :: rest => if b then specStreakGo d rest + 1 else 0

/-- The today-overview row filter (`date_local == today_local`,
lines 197/203 of the dashboard): records whose *local* calendar day in
the timezone with offset `off` equals `today`. -/
def todayRecords (ms : List MetricRecord) (off today : ℤ) : List MetricRecord :=
  ms.filter (fun r => localDay r.ts off == today)

/-- Concrete metric rows hitting the default step goal on UTC days 0
and 2, with day 1 absent (used to exercise C2/C3). -/
def msGap : List MetricRecord :=
  [⟨0, some 8000, none, none⟩, ⟨2880, some 8000, none, none⟩]

/-- Preferences with every goal absent (all defaults apply). -/
def prefs0 : Prefs := ⟨none, none, none⟩

/-- Two metric rows on UTC day 0 with distinct step counts (C1 witness). -/
def msW : List MetricRecord := [⟨0, some 3, none, none⟩, ⟨10, some 7, none, none⟩]

/-- Two meal rows on UTC day 0 (C1 witness). -/
def mealsW : List MealRecord := [⟨0, some 500⟩, ⟨10, some 300⟩]

/-! ### Context retrieval (`services/memory.py`)

ISO-8601 UTC timestamp strings compare lexicographically exactly as
their instants compare, so the `ts` sort key is modelled numerically. -/

/-- A retrieved context item: similarity score and timestamp. -/
structure CtxItem where
  similarity : ℚ
  ts : ℚ
deriving DecidableEq

/-- The composite order of `retrieve_health_context`'s
`sorted(key=(similarity, ts), reverse=True)`: `a` may precede `b` iff
`a`'s `(similarity, ts)` key is lexicographically at least `b`'s. -/
def ctxGE (a b : CtxItem) : Prop :=
  b.similarity < a.similarity ∨ (a.similarity = b.similarity ∧ b.ts ≤ a.ts)

instance : DecidableRel ctxGE := fun a b => by
  unfold ctxGE
  infer_instance

instance : IsTotal CtxItem ctxGE := ⟨by
  intro a b
  rcases lt_trichotomy a.similarity b.similarity with h | h | h
  · exact Or.inr (Or.inl h)
  · rcases le_total a.ts b.ts with ht | ht
    · exact Or.inr (Or.inr ⟨h.symm, ht⟩)
    · exact Or.inl (Or.inr ⟨h, ht⟩)
  · exact Or.inl (Or.inl h)⟩

instance : IsTrans CtxItem ctxGE := ⟨by
  intro a b c hab hbc
  rcases hab with h1 | ⟨e1, t1⟩ <;> rcases hbc with h2 | ⟨e2, t2⟩
  · exact Or.inl (lt_trans h2 h1)
  · exact Or.inl (e2 ▸ h1)
  · exact Or.inl (by rw [e1]; exact h2)
  · exact Or.inr ⟨e1.trans e2, le_trans t2 t1⟩⟩

/-- `retrieve_health_context` once the three RPC data lists `A`, `B`,
`C` are in hand: merge, stable-sort by the composite key descending
(Python's `sorted` is stable, as is insertion sort), truncate to `k`. -/
def retrieve_health_context (A B C : List CtxItem) (k : ℕ) : List CtxItem :=
  (List.insertionSort ctxGE (A ++ B ++ C)).take k

/-- The recency fallback query
`order("ts", desc=True).limit(k)` over the chat-history store. -/
def recentDesc (hist : List CtxItem) (k : ℕ) : List CtxItem :=
  (List.insertionSort (fun a b => b.ts ≤ a.ts) hist).take k

/-- `retrieve_context(uid, query, k)`: the RPC rows are returned when
the response's `data` is truthy; falsy `data` (missing/None/empty list)
triggers the recency fallback; an exception raised by the RPC call
propagates — the source has no try/except here. -/
def retrieve_context (rpc : Except Unit (Option (List CtxItem)))
    (hist : List CtxItem) (k : ℕ) : Except Unit (List CtxItem) :=
  match rpc with
  | .error e => .error e
  | .ok none => .ok (recentDesc hist k)
  | .ok (some l) => if l.isEmpty then .ok (recentDesc hist k) else .ok l

/-- `retrieve_health_context` including its three sequential RPC calls:
a raised exception propagates to the caller; a response without data is
treated as the empty list (`getattr(x, "data", []) or []`). -/
def retrieve_health_context_run
    (ra rb rc : Except Unit (Option (List CtxItem))) (k : ℕ) :
    Except Unit (List CtxItem) :=
  match ra with
  | .error e => .error e
  | .ok da =>
    match rb with
    | .error e => .error e
    | .ok db =>
      match rc with
      | .error e => .error e
      | .ok dc => .ok (retrieve_health_context (da.getD []) (db.getD []) (dc.getD []) k)

/-! ### Personal context and check-in parsing
(`services/memory.py`, `telegram_bot/bot.py`) -/

/-- `personal_context(uid, query_hint)` once the long-term summary
`summ` and the recent note texts are resolved: the f-string
concatenation `"Long-term summary:\n{summ}\n\nRecent notes:\n{...}"`,
stripped, where the notes are the nonempty texts prefixed `"- "` and
joined by newlines. -/
def personal_context (summ : List Char) (recents : List (List Char)) : List Char :=
  let recent_text :=
    pyJoin "\n".data ((recents.filter (fun t => !t.isEmpty)).map (fun t => "- ".data ++ t))
  pyStrip ("Long-term summary:\n".data ++ summ ++ "\n\nRecent notes:\n".data ++ recent_text)

/-- `_recent_context_snippets` of the Telegram bot: join the collected
snippet texts with spaces and truncate to 2000 characters. -/
def recent_context_snippets (snips : List (List Char)) : List Char :=
  (pyJoin " ".data snips).take 2000

/-- A 2100-character stored summary, long enough to overflow the claimed
~2000-character budget. -/
def bigSumm : List Char := List.replicate 2100 'a'

/-- Decimal value of a digit string (`int` on an all-digit token). -/
def digitsToNat (ds : List Char) : ℕ :=
  ds.foldl (fun a c => 10 * a + (c.toNat - 48)) 0

/-- Python `int(s)`: strip, optional sign, decimal digits; anything else
raises, modelled as `none` (underscore grouping and non-ASCII digits
are not modelled). -/
def pyInt (s : List Char) : Option ℤ :=
  match pyStrip s with
  | '+' :: ds => if !ds.isEmpty && ds.all Char.isDigit then some (digitsToNat ds : ℤ) else none
  | '-' :: ds => if !ds.isEmpty && ds.all Char.isDigit then some (-(digitsToNat ds : ℤ)) else none
  | ds => if !ds.isEmpty && ds.all Char.isDigit then some (digitsToNat ds : ℤ) else none

/-- Python `str.split()` with no argument: split on whitespace runs,
dropping empty tokens. -/
def pySplitWs (s : List Char) : List (List Char) :=
  (s.splitOnP Char.isWhitespace).filter (fun t => !t.isEmpty)

/-- The decline words of `_parse_items_kcal`. -/
def noneWords : List (List Char) := ["none".data, "no".data, "nil".data, "na".data]

/-- `_parse_items_kcal(text)` from the Telegram bot check-in flow. -/
def parse_items_kcal (text : List Char) : Option (List Char) × Option ℤ :=
  let t := pyStrip text
  if pyLower t ∈ noneWords then (none, some 0)
  else
    match t.splitOn ';' with
    | [p0, p1] =>
      let items := pyStrip p0
      ((if items.isEmpty then none else some items), pyInt p1)
    | _ =>
      let toks := pySplitWs t
      match toks.getLast? with
      | some lastTok =>
        if lastTok.all Char.isDigit && !lastTok.isEmpty then
          ((if (pyStrip (pyJoin " ".data toks.dropLast)).isEmpty then none
            else some (pyStrip (pyJoin " ".data toks.dropLast))),
           some (digitsToNat lastTok : ℤ))
        else ((if t.isEmpty then none else some t), none)
      | none => ((if t.isEmpty then none else some t), none)

lemma estimate_tdee_profileC5 : estimate_tdee profileC5 6000 420 2000 = 9009/5 := by
  unfold estimate_tdee profileC5 activity_factor orDefaultQ orDefaultZ orDefaultS
  norm_num [show listPre "m".data (pyLower "female".data) = false from by decide,
    show listPre "f".data (pyLower "female".data) = true from by decide,
    show listSub (pyLower "Sedentary".data) (pyLower "Sedentary".data) = true from by decide]

lemma roundHE_bounds (x : ℚ) : ⌊x⌋ ≤ roundHE x ∧ roundHE x ≤ ⌊x⌋ + 1 := by
  unfold roundHE
  split_ifs <;> omega

lemma roundHE_mono {a b : ℚ} (h : a ≤ b) : roundHE a ≤ roundHE b := by
  have hf : ⌊a⌋ ≤ ⌊b⌋ := Int.floor_le_floor h
  rcases eq_or_lt_of_le hf with hfe | hfl
  · have hfr : Int.fract a ≤ Int.fract b := by
      simp only [Int.fract]
      rw [hfe]
      linarith
    unfold roundHE
    rw [hfe]
    split_ifs <;> first | omega | linarith
  · have h1 := (roundHE_bounds a).2
    have h2 := (roundHE_bounds b).1
    omega

lemma roundHE_div10_mono {a b : ℚ} (h : a ≤ b) :
    ((roundHE a : ℤ) : ℚ) / 10 ≤ ((roundHE b : ℤ) : ℚ) / 10 := by
  have h1 : ((roundHE a : ℤ) : ℚ) ≤ ((roundHE b : ℤ) : ℚ) := by
    exact_mod_cast roundHE_mono h
  linarith

lemma projectGo_length (p : Profile) (k s sl wa dS dSl dW dI adh : ℚ) :
    ∀ (n : ℕ) (w : ℚ), (projectGo p k s sl wa dS dSl dW dI adh w n).length = n := by
  intro n
  induction n with
  | zero => intro w; rfl
  | succ n ih => intro w; simp [projectGo, ih]

lemma projectGo_incr (p : Profile) (k s sl wa dS dSl dW dI adh : ℚ)
    (hd : 0 < (k + dI - estimate_tdee p (s + dS) (sl + dSl) (wa + dW)) / 7700 * adh) :
    ∀ (n : ℕ) (w : ℚ), 35 ≤ w →
      (projectGo p k s sl wa dS dSl dW dI adh w n).Chain' (· < ·) ∧
      ∀ x ∈ projectGo p k s sl wa dS dSl dW dI adh w n, w < x := by
  intro n
  induction n with
  | zero => intro w _; exact ⟨List.chain'_nil, by intro x hx; cases hx⟩
  | succ n ih =>
    intro w hw
    have hstep : projectStep p k s sl wa dS dSl dW dI adh w =
        w + (k + dI - estimate_tdee p (s + dS) (sl + dSl) (wa + dW)) / 7700 * adh := by
      unfold projectStep
      exact max_eq_right (by linarith)
    obtain ⟨ihc, ihm⟩ := ih (projectStep p k s sl wa dS dSl dW dI adh w)
      (by rw [hstep]; linarith)
    refine ⟨?_, ?_⟩
    · show List.Chain' (· < ·) (projectStep p k s sl wa dS dSl dW dI adh w ::
        projectGo p k s sl wa dS dSl dW dI adh
          (projectStep p k s sl wa dS dSl dW dI adh w) n)
      rw [List.chain'_cons']
      refine ⟨fun y hy => ?_, ihc⟩
      have hy' := ihm y (List.mem_of_mem_head? hy)
      linarith
    · intro x hx
      rcases List.mem_cons.mp hx with hx | hx
      · rw [hx, hstep]; linarith
      · have := ihm x hx
        rw [hstep] at this
        linarith

/-- C4: for every combination of mood, focus, stress, anxiety and
average-sleep inputs, the adherence multiplier (a product of the
per-signal factors 1.02/0.98/0.97 clamped to the stated bounds) lies
within [0.88, 1.08]. -/
theorem adherence_multiplier_in_bounds (mood stress anxiety focus sleep_avg : ℚ) :
    22/25 ≤ adherence_multiplier mood stress anxiety focus sleep_avg ∧
    adherence_multiplier mood stress anxiety focus sleep_avg ≤ 27/25 := by
  unfold adherence_multiplier
  exact ⟨le_max_left _ _, max_le (by norm_num) (min_le_left _ _)⟩

/-- C5: for the profile {age 30, height 170 cm, weight 75 kg, female,
Sedentary} and averages {intake 2000 kcal, steps 6000, sleep 420 min,
water 2000 ml}, the TDEE estimate is exactly 1801.8 = 9009/5, and for
any adherence in [0.88, 1.08] the simulated 180-day weight series has
181 entries, is strictly increasing, and stays strictly above the
starting weight of 75 kg. -/
theorem tdee_C5_and_weight_series_increasing (adh : ℚ)
    (h1 : 22/25 ≤ adh) (h2 : adh ≤ 27/25) :
    estimate_tdee profileC5 6000 420 2000 = 9009/5 ∧
    (project_weight_series profileC5 2000 6000 420 2000 0 0 0 0 180 adh).length = 181 ∧
    (project_weight_series profileC5 2000 6000 420 2000 0 0 0 0 180 adh).Chain' (· < ·) ∧
    ∀ x ∈ project_weight_series profileC5 2000 6000 420 2000 0 0 0 0 180 adh, 75 < x := by
  have hadh : 0 < adh := by linarith
  have hd : 0 < (2000 + 0 - estimate_tdee profileC5 (6000 + 0) (420 + 0) (2000 + 0)) /
      7700 * adh := by
    have he : estimate_tdee profileC5 (6000 + 0) (420 + 0) (2000 + 0) = 9009/5 := by
      norm_num [estimate_tdee_profileC5]
    rw [he]
    positivity
  have hw0 : orDefaultQ profileC5.weight_kg 75 = 75 := by
    norm_num [profileC5, orDefaultQ]
  have hmain := projectGo_incr profileC5 2000 6000 420 2000 0 0 0 0 adh hd 181 75
    (by norm_num)
  refine ⟨estimate_tdee_profileC5, ?_, ?_, ?_⟩
  · unfold project_weight_series
    rw [projectGo_length]
  · unfold project_weight_series
    rw [hw0]
    exact hmain.1
  · unfold project_weight_series
    rw [hw0]
    exact fun x hx => hmain.2 x hx

/-- Witness for C5 at the concrete adherence value 1. -/
theorem tdee_C5_witness :
    estimate_tdee profileC5 6000 420 2000 = 9009/5 ∧
    (project_weight_series profileC5 2000 6000 420 2000 0 0 0 0 180 1).length = 181 ∧
    (project_weight_series profileC5 2000 6000 420 2000 0 0 0 0 180 1).Chain' (· < ·) ∧
    ∀ x ∈ project_weight_series profileC5 2000 6000 420 2000 0 0 0 0 180 1, 75 < x :=
  tdee_C5_and_weight_series_increasing 1 (by norm_num) (by norm_num)

/-- C6: on the [1,5] input range the wellbeing score is monotonically
non-decreasing in mood and in focus, and non-increasing in stress and in
anxiety, the other inputs held fixed. -/
theorem wellbeing_score_monotone (m m' s s' a a' f f' : ℚ)
    (hm : 1 ≤ m ∧ m ≤ 5) (hm' : 1 ≤ m' ∧ m' ≤ 5)
    (hs : 1 ≤ s ∧ s ≤ 5) (hs' : 1 ≤ s' ∧ s' ≤ 5)
    (ha : 1 ≤ a ∧ a ≤ 5) (ha' : 1 ≤ a' ∧ a' ≤ 5)
    (hf : 1 ≤ f ∧ f ≤ 5) (hf' : 1 ≤ f' ∧ f' ≤ 5) :
    (m ≤ m' → wellbeing_score m s a f ≤ wellbeing_score m' s a f) ∧
    (f ≤ f' → wellbeing_score m s a f ≤ wellbeing_score m s a f') ∧
    (s ≤ s' → wellbeing_score m s' a f ≤ wellbeing_score m s a f) ∧
    (a ≤ a' → wellbeing_score m s a' f ≤ wellbeing_score m s a f) := by
  refine ⟨fun h => ?_, fun h => ?_, fun h => ?_, fun h => ?_⟩ <;>
  · simp only [wellbeing_score]
    exact roundHE_div10_mono (by linarith)

/-- Witness for C6 at concrete in-range inputs. -/
theorem wellbeing_score_monotone_witness :
    wellbeing_score 2 3 3 3 ≤ wellbeing_score 4 3 3 3 :=
  ((wellbeing_score_monotone 2 4 3 3 3 3 3 3
    (by norm_num) (by norm_num) (by norm_num) (by norm_num)
    (by norm_num) (by norm_num) (by norm_num) (by norm_num)).1) (by norm_num)



lemma foldl_max_mem (xs : List ℚ) : ∀ x : ℚ, xs.foldl max x = x ∨ xs.foldl max x ∈ xs := by
  induction xs with
  | nil => intro x; left; rfl
  | cons y ys ih =>
    intro x
    rcases ih (max x y) with h | h
    · rcases max_choice x y with hc | hc
      · left; rw [List.foldl_cons, h, hc]
      · right; rw [List.foldl_cons, h, hc]; exact List.mem_cons_self _ _
    · right
      exact List.mem_cons_of_mem _ (by rw [List.foldl_cons]; exact h)

lemma le_foldl_max (xs : List ℚ) :
    ∀ x : ℚ, x ≤ xs.foldl max x ∧ ∀ a ∈ xs, a ≤ xs.foldl max x := by
  induction xs with
  | nil =>
    intro x
    exact ⟨le_refl x, by intro a ha; cases ha⟩
  | cons y ys ih =>
    intro x
    obtain ⟨h1, h2⟩ := ih (max x y)
    refine ⟨le_trans (le_max_left x y) h1, ?_⟩
    intro a ha
    rcases List.mem_cons.mp ha with rfl | ha'
    · exact le_trans (le_max_right x a) h1
    · exact h2 a ha'

lemma reduceSum_eq_sum (l : List ℚ) : reduceSum l = l.sum := by
  have key : ∀ (l : List ℚ) (a : ℚ), l.foldl (· + ·) a = a + l.sum := by
    intro l
    induction l with
    | nil => intro a; simp
    | cons x xs ih =>
      intro a
      rw [List.foldl_cons, ih, List.sum_cons]
      ring
  rw [reduceSum, key]
  simp

/-- C1: the daily aggregate for a day has `steps` equal to the maximum
steps value among that day's metric records (an attained upper bound,
not the sum), and `calories` equal to the sum of that day's meal-record
calories. -/
theorem daily_steps_max_and_calories_sum
    (ms : List MetricRecord) (meals : List MealRecord) (d : ℤ) :
    (∀ m, dailyStepsAgg ms d = some m →
      m ∈ fieldOfDay (fun r => r.steps) ms d ∧
      ∀ x ∈ fieldOfDay (fun r => r.steps) ms d, x ≤ m) ∧
    mealDayCalories meals d = (calsOfDay meals d).sum := by
  constructor
  · intro m hm
    unfold dailyStepsAgg at hm
    cases hl : fieldOfDay (fun r => r.steps) ms d with
    | nil => rw [hl] at hm; cases hm
    | cons x xs =>
      rw [hl] at hm
      unfold reduceMax at hm
      injection hm with hm
      constructor
      · rcases foldl_max_mem xs x with h | h
        · rw [← hm, h]; exact List.mem_cons_self _ _
        · rw [← hm]; exact List.mem_cons_of_mem _ h
      · intro a ha
        obtain ⟨h1, h2⟩ := le_foldl_max xs x
        rw [← hm]
        rcases List.mem_cons.mp ha with rfl | ha'
        · exact h1
        · exact h2 a ha'
  · exact reduceSum_eq_sum _

/-- Witness for C1 on concrete records: on day 0 of `msW` the aggregate
is 7, attained and maximal, and the meal calories add up. -/
theorem daily_steps_max_and_calories_sum_witness :
    ((7 : ℚ) ∈ fieldOfDay (fun r => r.steps) msW 0 ∧
      ∀ x ∈ fieldOfDay (fun r => r.steps) msW 0, x ≤ 7) ∧
    mealDayCalories mealsW 0 = (calsOfDay mealsW 0).sum :=
  ⟨(daily_steps_max_and_calories_sum msW mealsW 0).1 7 (by decide),
   (daily_steps_max_and_calories_sum msW mealsW 0).2⟩

/-- C2 counterexample: a record logged at minute 180 (03:00 UTC) is
grouped by `goal_hits_by_day` under UTC day 0, although its local
calendar day at offset −300 minutes (UTC−05:00) is −1: the trend /
goal-hit / badge grouping uses the UTC calendar day, not the user's
configured-timezone day. -/
theorem goal_hits_groups_by_utc_day_counterexample :
    (goal_hits_by_day [⟨180, some 8000, none, none⟩] prefs0).map (fun h => h.day) = [0] ∧
    localDay 180 (-300) = -1 ∧
    (goal_hits_by_day [⟨180, some 8000, none, none⟩] prefs0).map (fun h => h.day) ≠
      [localDay 180 (-300)] :=
  ⟨by decide, by decide, by decide⟩

/-- C2 amended: in the trend / goal-hit / badge reductions each record —
metric and meal alike — is assigned to the *UTC* calendar day of its
timestamp: a metric value enters day `d`'s aggregate column iff its
record's UTC day is `d`, a meal's calories enter day `d`'s sum iff its
UTC day is `d`, every goal-hit row's day is some record's UTC day and
every record's UTC day yields a row; only the today-overview filter
selects records by their *local* calendar day. -/
theorem day_assignment_amended (ms : List MetricRecord) (meals : List MealRecord)
    (p : Prefs) :
    (∀ (f : MetricRecord → Option ℚ) (d : ℤ) (x : ℚ),
      x ∈ fieldOfDay f ms d ↔ ∃ r ∈ ms, utcDay r.ts = d ∧ f r = some x) ∧
    (∀ (d : ℤ) (x : ℚ),
      x ∈ calsOfDay meals d ↔ ∃ r ∈ meals, utcDay r.ts = d ∧ r.calories = some x) ∧
    (∀ h ∈ goal_hits_by_day ms p, ∃ r ∈ ms, h.day = utcDay r.ts) ∧
    (∀ r ∈ ms, ∃ h ∈ goal_hits_by_day ms p, h.day = utcDay r.ts) ∧
    (∀ off d r, r ∈ todayRecords ms off d ↔ r ∈ ms ∧ localDay r.ts off = d) := by
  refine ⟨?_, ?_, ?_, ?_, ?_⟩
  · intro f d x
    simp only [fieldOfDay, List.mem_filterMap, List.mem_filter, beq_iff_eq]
    constructor
    · rintro ⟨r, ⟨hr, hd⟩, hf⟩
      exact ⟨r, hr, hd, hf⟩
    · rintro ⟨r, hr, hd, hf⟩
      exact ⟨r, ⟨hr, hd⟩, hf⟩
  · intro d x
    simp only [calsOfDay, List.mem_filterMap, List.mem_filter, beq_iff_eq]
    constructor
    · rintro ⟨r, ⟨hr, hd⟩, hf⟩
      exact ⟨r, hr, hd, hf⟩
    · rintro ⟨r, hr, hd, hf⟩
      exact ⟨r, ⟨hr, hd⟩, hf⟩
  · intro h hh
    simp only [goal_hits_by_day, List.mem_map] at hh
    obtain ⟨d, hd, rfl⟩ := hh
    simp only [daysOf, List.mem_insertionSort, List.mem_dedup, List.mem_map] at hd
    obtain ⟨r, hr, hrd⟩ := hd
    exact ⟨r, hr, hrd.symm⟩
  · intro r hr
    have hd : utcDay r.ts ∈ daysOf ms := by
      simp only [daysOf, List.mem_insertionSort, List.mem_dedup, List.mem_map]
      exact ⟨r, hr, rfl⟩
    simp only [goal_hits_by_day, List.mem_map]
    exact ⟨_, ⟨utcDay r.ts, hd, rfl⟩, rfl⟩
  · intro off d r
    simp [todayRecords, List.mem_filter]

/-- Witness for C2 amended at concrete inputs: per-record UTC-day
membership for a metric value and a meal's calories, the row days of
`goal_hits_by_day`, and the local-day today filter. -/
theorem day_assignment_amended_witness :
    ((8000 : ℚ) ∈ fieldOfDay (fun r => r.steps) msGap 0 ↔
      ∃ r ∈ msGap, utcDay r.ts = 0 ∧ r.steps = some 8000) ∧
    ((500 : ℚ) ∈ calsOfDay mealsW 0 ↔
      ∃ r ∈ mealsW, utcDay r.ts = 0 ∧ r.calories = some 500) ∧
    (∃ r ∈ msGap, (⟨0, true, false, false, true⟩ : DayHits).day = utcDay r.ts) ∧
    (∃ h ∈ goal_hits_by_day msGap prefs0,
      h.day = utcDay (⟨0, some 8000, none, none⟩ : MetricRecord).ts) ∧
    ((⟨0, some 8000, none, none⟩ : MetricRecord) ∈ todayRecords msGap (-300) (-1) ↔
      (⟨0, some 8000, none, none⟩ : MetricRecord) ∈ msGap ∧ localDay 0 (-300) = -1) :=
  ⟨(day_assignment_amended msGap mealsW prefs0).1 (fun r => r.steps) 0 8000,
   (day_assignment_amended msGap mealsW prefs0).2.1 0 500,
   (day_assignment_amended msGap mealsW prefs0).2.2.1 ⟨0, true, false, false, true⟩
     (by decide),
   (day_assignment_amended msGap mealsW prefs0).2.2.2.1 ⟨0, some 8000, none, none⟩
     (by decide),
   (day_assignment_amended msGap mealsW prefs0).2.2.2.2 (-300) (-1)
     ⟨0, some 8000, none, none⟩⟩

/-- C3 counterexample: with goal-hitting records on days 0 and 2 only
(day 1 absent), `current_streak` still counts both days (result 2),
whereas the claimed gap-breaking backward scan would stop at the missing
day and give 1. -/
theorem current_streak_ignores_gaps_counterexample :
    current_streak ((goal_hits_by_day msGap prefs0).map (fun h => h.any_hit)) = 2 ∧
    specStreak ((goal_hits_by_day msGap prefs0).map (fun h => (h.day, h.any_hit))) = 1 :=
  ⟨by decide, by decide⟩

lemma streakGo_eq_takeWhile (l : List Bool) :
    streakGo l = (l.takeWhile (fun b => b)).length := by
  induction l with
  | nil => rfl
  | cons b bs ih => cases b <;> simp [streakGo, List.takeWhile_cons, ih]

/-- C3 amended: `current_streak` counts the trailing run of `any_hit`
values that are true among the *present* rows only — calendar gaps do
not break the run — and appending a most-recent miss makes it 0. -/
theorem current_streak_trailing_run (l : List Bool) :
    current_streak l = (l.reverse.takeWhile (fun b => b)).length ∧
    current_streak (l ++ [false]) = 0 := by
  constructor
  · exact streakGo_eq_takeWhile _
  · unfold current_streak
    rw [List.reverse_append]
    simp [streakGo]


/-- C7: for any candidate lists from the three content stores, the
merged retrieval result is sorted by similarity descending with ties
broken by timestamp descending, and has length at most `k`. -/
theorem retrieve_health_context_sorted_topk (A B C : List CtxItem) (k : ℕ) :
    (retrieve_health_context A B C k).length ≤ k ∧
    (retrieve_health_context A B C k).Pairwise ctxGE := by
  constructor
  · exact List.length_take_le _ _
  · exact List.Pairwise.sublist (List.take_sublist _ _)
      (List.sorted_insertionSort ctxGE (A ++ B ++ C))

/-- C8 counterexample: when the similarity RPC raises, both
`retrieve_context` and `retrieve_health_context` propagate the
exception to their caller instead of returning a recency fallback —
there is no try/except around these store calls. -/
theorem retrieve_context_raises_counterexample :
    retrieve_context (Except.error ()) [⟨1, 1⟩] 6 = Except.error () ∧
    retrieve_health_context_run (Except.error ()) (Except.ok none) (Except.ok none) 8 =
      Except.error () :=
  ⟨rfl, rfl⟩

/-- C8 amended: the per-store fallback to the k most recent items by
timestamp happens only when the RPC call *returns* without data
(missing/None/empty); a store call that raises propagates the exception
to the caller. -/
theorem retrieve_context_fallback_amended (hist : List CtxItem) (k : ℕ) :
    retrieve_context (Except.ok none) hist k = Except.ok (recentDesc hist k) ∧
    retrieve_context (Except.ok (some [])) hist k = Except.ok (recentDesc hist k) ∧
    (∀ l, l ≠ [] → retrieve_context (Except.ok (some l)) hist k = Except.ok l) ∧
    retrieve_context (Except.error ()) hist k = Except.error () := by
  refine ⟨rfl, rfl, ?_, rfl⟩
  intro l hl
  cases l with
  | nil => exact absurd rfl hl
  | cons x xs => rfl

/-- Witness for C8 amended: nonempty RPC data is returned as-is. -/
theorem retrieve_context_fallback_amended_witness :
    retrieve_context (Except.ok (some [⟨1, 2⟩])) [] 6 = Except.ok [⟨1, 2⟩] :=
  (retrieve_context_fallback_amended [] 6).2.2.1 [⟨1, 2⟩] (List.cons_ne_nil _ _)

/-- C9 counterexample: `personal_context` applies no character budget —
with a 2100-character stored summary and no recent notes its return
value is longer than 2000 characters. -/
lemma takeWhile_append_of_not_all (p : Char → Bool) (xs ys : List Char)
    (h : xs.all p = false) :
    List.takeWhile p (xs ++ ys) = List.takeWhile p xs := by
  induction xs with
  | nil => simp at h
  | cons c t ih =>
    cases hc : p c with
    | false => simp [List.takeWhile_cons, hc]
    | true =>
      have ht : t.all p = false := by
        rw [List.all_cons, hc] at h
        simpa using h
      simp [List.takeWhile_cons, hc, ih ht]

lemma length_dropWhile_eq (p : Char → Bool) (l : List Char) :
    (l.dropWhile p).length = l.length - (l.takeWhile p).length := by
  have h := List.takeWhile_append_dropWhile p (l := l)
  have h2 := congrArg List.length h
  rw [List.length_append] at h2
  omega

theorem personal_context_unbounded_counterexample :
    2000 < (personal_context bigSumm []).length := by
  have hpc : personal_context bigSumm [] =
      pyStrip ("Long-term summary:\n".data ++ bigSumm ++ "\n\nRecent notes:\n".data) := by
    unfold personal_context
    simp only [List.filter_nil, List.map_nil,
      show pyJoin "\n".data [] = [] from rfl, List.append_nil]
  have hpretake : List.takeWhile Char.isWhitespace "Long-term summary:\n".data = [] := by
    decide
  have hpreall : "Long-term summary:\n".data.all Char.isWhitespace = false := by decide
  have hmidall : ("\n\nRecent notes:\n".data).reverse.all Char.isWhitespace = false := by
    decide
  have hslen : ("Long-term summary:\n".data ++ bigSumm ++ "\n\nRecent notes:\n".data).length
      = 2135 := by
    rw [List.length_append, List.length_append]
    rw [show ("Long-term summary:\n".data).length = 19 from by decide,
      show ("\n\nRecent notes:\n".data).length = 16 from by decide,
      show bigSumm.length = 2100 from by rw [bigSumm, List.length_replicate]]
  have htake1 : List.takeWhile Char.isWhitespace
      ("Long-term summary:\n".data ++ bigSumm ++ "\n\nRecent notes:\n".data) = [] := by
    rw [List.append_assoc, takeWhile_append_of_not_all _ _ _ hpreall, hpretake]
  have hdrop1 : List.dropWhile Char.isWhitespace
      ("Long-term summary:\n".data ++ bigSumm ++ "\n\nRecent notes:\n".data)
      = "Long-term summary:\n".data ++ bigSumm ++ "\n\nRecent notes:\n".data := by
    have h := List.takeWhile_append_dropWhile Char.isWhitespace
      (l := "Long-term summary:\n".data ++ bigSumm ++ "\n\nRecent notes:\n".data)
    rw [htake1] at h
    simpa using h
  have hrev : ("Long-term summary:\n".data ++ bigSumm ++ "\n\nRecent notes:\n".data).reverse
      = ("\n\nRecent notes:\n".data).reverse ++
        (bigSumm.reverse ++ ("Long-term summary:\n".data).reverse) := by
    simp [List.reverse_append]
  have htake2 : (List.takeWhile Char.isWhitespace
      (("Long-term summary:\n".data ++ bigSumm ++ "\n\nRecent notes:\n".data).reverse)).length
      ≤ 16 := by
    rw [hrev, takeWhile_append_of_not_all _ _ _ hmidall]
    calc (List.takeWhile Char.isWhitespace ("\n\nRecent notes:\n".data).reverse).length
        ≤ ("\n\nRecent notes:\n".data).reverse.length :=
          (List.takeWhile_sublist _).length_le
      _ = 16 := by decide
  rw [hpc]
  unfold pyStrip
  rw [List.length_reverse, length_dropWhile_eq, List.length_reverse, hdrop1, hslen]
  omega

/-- C9 amended: the ~2000-character budget lives in the bot's
`_recent_context_snippets` (which truncates the joined snippet texts to
2000 characters); `personal_context` itself concatenates the summary
and notes without any budget. -/
theorem recent_context_snippets_bounded (snips : List (List Char)) :
    (recent_context_snippets snips).length ≤ 2000 :=
  List.length_take_le _ _

/-- C10: the check-in meal parser returns `(None, 0)` — a declined meal
with *zero* calories, not an absent value — whenever the trimmed,
lowercased input is one of "none"/"no"/"nil"/"na"; and on an input of
the form `items; N` (two `;`-parts, integer second part, nonempty items)
it returns the stripped items text and calories `N`. -/
theorem parse_items_kcal_spec :
    (∀ s, pyLower (pyStrip s) ∈ noneWords → parse_items_kcal s = (none, some 0)) ∧
    (∀ s itemsPart numPart (N : ℤ),
      pyLower (pyStrip s) ∉ noneWords →
      (pyStrip s).splitOn ';' = [itemsPart, numPart] →
      pyInt numPart = some N →
      pyStrip itemsPart ≠ [] →
      parse_items_kcal s = (some (pyStrip itemsPart), some N)) := by
  constructor
  · intro s h
    unfold parse_items_kcal
    rw [if_pos h]
  · intro s itemsPart numPart N hnw hsplit hint hne
    have hempty : (pyStrip itemsPart).isEmpty = false := by
      cases h' : pyStrip itemsPart with
      | nil => exact absurd h' hne
      | cons a as => rfl
    unfold parse_items_kcal
    rw [if_neg hnw, hsplit]
    show ((if (pyStrip itemsPart).isEmpty then none else some (pyStrip itemsPart)),
      pyInt numPart) = _
    rw [hempty, hint]
    rfl

/-- Witness for C10: a declined input and a concrete `items; N` input. -/
theorem parse_items_kcal_witness :
    parse_items_kcal " None ".data = (none, some 0) ∧
    parse_items_kcal "eggs; 300".data = (some (pyStrip "eggs".data), some 300) :=
  ⟨parse_items_kcal_spec.1 " None ".data (by decide),
   parse_items_kcal_spec.2 "eggs; 300".data "eggs".data " 300".data 300
     (by decide) (by decide) (by decide) (by decide)⟩

end HW
